import Mathlib

/-!
Shallow embedding of the resume-shortlisting core (`core/parsing.py` and
`core/scoring.py` of the repository): text decoding, skill extraction,
experience computation, education and job-title extraction, and the scoring
engine with its local heuristic fallback.

Conventions used throughout:
* Python strings are Lean `String`s (`List Char` underneath); byte inputs are
  `List Nat`.
* Python `float` arithmetic is modelled exactly: a binary64 operation is the
  exact rational result rounded to 53 significant bits, ties to even
  (`rnd53`).  Subnormals and overflow are irrelevant at the magnitudes the
  code produces and are not modelled.
* The regexes of `core/parsing.py` are embedded through a small backtracking
  engine (`RE`, `mrun`) with Python `re` semantics: leftmost match,
  alternation in written order, greedy repetition, case-insensitive literals
  (every regex in the source is compiled with `re.I`).
* External libraries (`PyPDF2`, `python-docx`, `dateparser`, the OpenAI
  client) are not part of the repository; they are modelled from the spec,
  each such definition carries a doc comment saying so.
-/

namespace ResumeCore

/-! ### Python-flavoured character and string helpers -/

/-- ASCII whitespace as recognised by Python `str.strip` and the regex class
`\s` (space, tab, newline, carriage return, vertical tab, form feed).
Non-ASCII Unicode whitespace is not modelled. -/
def isPySpace (c : Char) : Bool :=
  c == ' ' || c == '\t' || c == '\n' || c == '\r' ||
    c == Char.ofNat 11 || c == Char.ofNat 12

/-- Python `str.strip()` on a character list. -/
def pyStripL (cs : List Char) : List Char :=
  ((cs.dropWhile isPySpace).reverse.dropWhile isPySpace).reverse

/-- Python `str.strip()`. -/
def pyStrip (s : String) : String := ⟨pyStripL s.data⟩

/-- Python `str.lower()` (ASCII case folding; the inputs the claims touch are
ASCII). -/
def lowerS (s : String) : String := ⟨s.data.map Char.toLower⟩

/-- Boolean test: `needle` occurs contiguously inside `hay`. -/
def listInfix (needle hay : List Char) : Bool :=
  match hay with
  | [] => needle.isEmpty
  | _ :: t => List.isPrefixOf needle hay || listInfix needle t

/-- Python's `a in b` on strings after lowering both sides: case-insensitive
containment. -/
def containsIC (pat : String) (cs : List Char) : Bool :=
  listInfix pat.data (cs.map Char.toLower)

/-- Digits of a numeral to its value. -/
def digitsToNat (cs : List Char) : Nat :=
  cs.foldl (fun a c => 10 * a + (c.toNat - 48)) 0

/-- Lexicographic strict order on character lists by code point, as Python
compares strings. -/
def lexLtB : List Char → List Char → Bool
  | [], [] => false
  | [], _ :: _ => true
  | _ :: _, [] => false
  | a :: as, b :: bs =>
      if a.toNat < b.toNat then true
      else if b.toNat < a.toNat then false
      else lexLtB as bs

/-- Comparison `a ≤ b` in Python string order. -/
def strLeB (a b : String) : Bool := !(lexLtB b.data a.data)

/-! ### Exact model of Python `float` (IEEE-754 binary64) and `round` -/

/-- Round the fraction `n / d` (with `d > 0`) to the nearest integer, ties to
even — the rounding `round` performs in Python 3. -/
def roundHEFrac (n d : ℤ) : ℤ :=
  let f := Int.fdiv n d
  let r2 := 2 * (n - f * d)
  if r2 < d then f else if d < r2 then f + 1 else if f % 2 = 0 then f else f + 1

/-- Python `round(x)` for a float held as an exact rational. -/
def pyRoundHE (q : ℚ) : ℤ := roundHEFrac q.num q.den

/-- Smallest `k' ≥ k` with `n < d * 2 ^ k'`, entered with `p = 2 ^ k`
(fuel-bounded search). -/
def expSearchUp : Nat → ℤ → ℤ → Nat → ℤ → Nat
  | 0, _, _, k, _ => k
  | f + 1, n, d, k, p => if n < d * p then k else expSearchUp f n d (k + 1) (2 * p)

/-- Smallest `j' ≥ j` with `d ≤ n * 2 ^ j'`, entered with `p = 2 ^ j`
(fuel-bounded search). -/
def expSearchDn : Nat → ℤ → ℤ → Nat → ℤ → Nat
  | 0, _, _, j, _ => j
  | f + 1, n, d, j, p => if d ≤ n * p then j else expSearchDn f n d (j + 1) (2 * p)

/-- Round an exact rational to the nearest IEEE-754 binary64 value (53
significant bits, ties to even).  This is what every Python float arithmetic
operation does to its exact result. -/
def rnd53 (q : ℚ) : ℚ :=
  if q.num = 0 then Rat.divInt 0 1
  else
    let n : ℤ := q.num.natAbs
    let d : ℤ := q.den
    let E : ℤ :=
      if d ≤ n then (expSearchUp 4200 n d 1 2 : ℤ)
      else 1 - (expSearchDn 4200 n d 1 2 : ℤ)
    let m : ℤ :=
      if E ≤ 53 then roundHEFrac (n * 2 ^ (53 - E).toNat) d
      else roundHEFrac n (d * 2 ^ (E - 53).toNat)
    let sgn : ℤ := if q.num < 0 then -1 else 1
    if 53 ≤ E then Rat.divInt (sgn * m * 2 ^ (E - 53).toNat) 1
    else Rat.divInt (sgn * m) (2 ^ (53 - E).toNat)

/-- Binary64 division of two exactly-representable integers, as Python
evaluates `a / b` on ints. -/
def floatDiv (a b : ℤ) : ℚ := rnd53 (Rat.divInt a b)

/-- Binary64 product of a float and an exactly-representable integer, as
Python evaluates `x * k`. -/
def floatMulInt (x : ℚ) (k : ℤ) : ℚ := rnd53 (Rat.divInt (x.num * k) (x.den : ℤ))

/-! ### A small backtracking regex engine (Python `re` semantics)

Alternation is tried in written order, repetition is greedy with
backtracking, literals match case-insensitively (all regexes in
`core/parsing.py` carry `re.I`), and scanning returns the leftmost match —
exactly CPython's behaviour for the patterns embedded below. -/

/-- The character classes the source regexes use. -/
inductive Klass where
  | wordc
  | digit
  | space
  | jtsep
  | dotAny
deriving DecidableEq

/-- Membership of a character in a class (`\w`, `\d`, `\s`, the class
`[:\-\s]` of the job-title regex, and `.`), on the ASCII view. -/
def Klass.test : Klass → Char → Bool
  | .wordc, c => c.isAlphanum || c == '_'
  | .digit, c => c.isDigit
  | .space, c => isPySpace c
  | .jtsep, c => c == ':' || c == '-' || isPySpace c
  | .dotAny, c => !(c == '\n')

/-- Regex abstract syntax.  `rep r lo hi` is greedy `r{lo,hi}` (`hi = none`
is unbounded); `grp i r` is the capturing group numbered `i`. -/
inductive RE where
  | eps
  | lit (s : List Char)
  | kls (k : Klass)
  | alt (a b : RE)
  | cat (a b : RE)
  | rep (r : RE) (lo : Nat) (hi : Option Nat)
  | grp (i : Nat) (r : RE)

/-- Match a literal (case-insensitively) against the head of the input. -/
def dropLitCI : List Char → List Char → Option (List Char)
  | [], s => some s
  | _ :: _, [] => none
  | p :: ps, c :: cs =>
      if p.toLower == c.toLower then dropLitCI ps cs else none

/-- Captured groups: group number paired with the captured text. -/
abbrev Caps := List (Nat × List Char)

/-- The backtracking matcher, in continuation-passing style.  The `Nat` fuel
only bounds recursion depth; callers supply ample fuel so that it never
expires on the inputs used. -/
def mrun : Nat → RE → List Char → Caps →
    (List Char → Caps → Option (List Char × Caps)) → Option (List Char × Caps)
  | 0, _, _, _, _ => none
  | _ + 1, .eps, s, c, k => k s c
  | _ + 1, .lit l, s, c, k =>
      match dropLitCI l s with
      | some rest => k rest c
      | none => none
  | _ + 1, .kls kl, s, c, k =>
      match s with
      | [] => none
      | ch :: rest => if kl.test ch then k rest c else none
  | f + 1, .alt a b, s, c, k =>
      match mrun f a s c k with
      | some r => some r
      | none => mrun f b s c k
  | f + 1, .cat a b, s, c, k =>
      mrun f a s c (fun s2 c2 => mrun f b s2 c2 k)
  | f + 1, .rep r lo hi, s, c, k =>
      if lo ≠ 0 then
        mrun f r s c (fun s2 c2 => mrun f (.rep r (lo - 1) (hi.map (· - 1))) s2 c2 k)
      else
        match hi with
        | some 0 => k s c
        | _ =>
          match mrun f r s c (fun s2 c2 =>
              if s2.length < s.length then
                mrun f (.rep r 0 (hi.map (· - 1))) s2 c2 k
              else none) with
          | some res => some res
          | none => k s c
  | f + 1, .grp i r, s, c, k =>
      mrun f r s c (fun s2 c2 => k s2 (c2 ++ [(i, s.take (s.length - s2.length))]))

/-- Try to match `re` at the start of `s`; on success return the length of
the match and the captures. -/
def matchAt (re : RE) (s : List Char) : Option (Nat × Caps) :=
  match mrun (1000 * (s.length + 4)) re s [] (fun rest caps => some (rest, caps)) with
  | some (rest, caps) => some (s.length - rest.length, caps)
  | none => none

/-- One regex match: the matched text and the captures. -/
structure RMatch where
  whole : List Char
  caps : List (Nat × List Char)
deriving DecidableEq

/-- Worker for `finditer`: scan left to right, emit non-overlapping matches,
resume after each match (Python `re.finditer`). -/
def finditerGo : Nat → RE → List Char → List RMatch
  | 0, _, _ => []
  | _ + 1, _, [] => []
  | f + 1, re, s =>
    match matchAt re s with
    | some (len, caps) =>
        if len = 0 then finditerGo f re s.tail
        else ⟨s.take len, caps⟩ :: finditerGo f re (s.drop len)
    | none => finditerGo f re s.tail

/-- Python `re.finditer`. -/
def finditer (re : RE) (s : List Char) : List RMatch := finditerGo (s.length + 1) re s

/-- Worker for `reSearch`. -/
def searchGo : Nat → RE → List Char → Option RMatch
  | 0, _, _ => none
  | f + 1, re, s =>
    match matchAt re s with
    | some (len, caps) => some ⟨s.take len, caps⟩
    | none =>
      match s with
      | [] => none
      | _ :: t => searchGo f re t

/-- Python `re.search`: the leftmost match anywhere in the input. -/
def reSearch (re : RE) (s : List Char) : Option RMatch := searchGo (s.length + 1) re s

/-- Text captured by group `i` of a match. -/
def capGet (m : RMatch) (i : Nat) : Option (List Char) :=
  (m.caps.find? (fun p => p.1 == i)).map (·.2)

/-- Left-to-right alternation of a head and further branches, preserving
written order. -/
def altListRE (hd : RE) (tl : List RE) : RE := tl.foldl .alt hd

/-- Sequencing of a list of regexes. -/
def catList (rs : List RE) : RE := rs.foldr .cat .eps

/-! ### `DATE_RANGE_RE` and `compute_experience_years` (`core/parsing.py`) -/

/-- The three-letter month alternatives of `DATE_RANGE_RE`, in written
order. -/
def monthAltRE : RE :=
  altListRE (.lit "Jan".data)
    (["Feb", "Mar", "Apr", "May", "Jun", "Jul", "Aug", "Sep", "Oct", "Nov",
      "Dec"].map (fun s => RE.lit s.data))

/-- Pattern `\d{4}`. -/
def d4RE : RE := .rep (.kls .digit) 4 (some 4)

/-- Pattern `\s*`. -/
def wsRE : RE := .rep (.kls .space) 0 none

/-- Pattern `(?:Jan|...|Dec|\w{3,9}|\d{4})[\.]?\s*\d{4}` — a month-word (or stray
token) followed by a four-digit year. -/
def monYearRE : RE :=
  catList [altListRE monthAltRE [.rep (.kls .wordc) 3 (some 9), d4RE],
    .rep (.lit ".".data) 0 (some 1), wsRE, d4RE]

/-- The named group `from` of `DATE_RANGE_RE`. -/
def fromRE : RE := .grp 1 (.alt monYearRE d4RE)

/-- Pattern `\s*(?:-|to|—|–)\s*`. -/
def sepRE : RE :=
  catList [wsRE,
    altListRE (.lit "-".data) [.lit "to".data, .lit "—".data, .lit "–".data],
    wsRE]

/-- The named group `to` of `DATE_RANGE_RE`. -/
def toRE : RE :=
  .grp 2 (altListRE (.lit "Present".data)
    [.lit "present".data, .lit "Current".data, .lit "Now".data, monYearRE, d4RE])

/-- Source `DATE_RANGE_RE` of `core/parsing.py` (compiled with `re.I`). -/
def dateRangeRE : RE := .cat fromRE (.cat sepRE toRE)

/-- All matches of `DATE_RANGE_RE` in a text. -/
def dateRangeMatches (text : String) : List RMatch := finditer dateRangeRE text.data

/-- A parsed calendar date at month granularity.  `dateparser` fills the
missing day from the current date on both sides of a range, so comparing
`(year, month)` matches the code's `datetime` comparison. -/
structure PDate where
  year : ℤ
  month : ℤ
deriving DecidableEq

/-- Month names understood by the date parser model: full names, their
three-letter forms, and "sept". -/
def monthNames : List (List Char × ℤ) :=
  [("january".data, 1), ("jan".data, 1), ("february".data, 2), ("feb".data, 2),
   ("march".data, 3), ("mar".data, 3), ("april".data, 4), ("apr".data, 4),
   ("may".data, 5), ("june".data, 6), ("jun".data, 6), ("july".data, 7),
   ("jul".data, 7), ("august".data, 8), ("aug".data, 8),
   ("september".data, 9), ("sept".data, 9), ("sep".data, 9),
   ("october".data, 10), ("oct".data, 10), ("november".data, 11),
   ("nov".data, 11), ("december".data, 12), ("dec".data, 12)]

/-- Modelled from the spec: the external `dateparser.parse` library call,
described as "natural-language month/year parsing".  A month name with a
four-digit year resolves to that month; a bare four-digit year resolves to
that year with the month taken from the current date (`now`); anything else
— in particular the stray `\w{3,9}` tokens the regex can capture — yields
`none`, which the caller skips. -/
def dateParse (now : PDate) (raw : List Char) : Option PDate :=
  let cs := (pyStripL raw).map Char.toLower
  let letters := cs.takeWhile Char.isAlpha
  if letters.isEmpty then
    if cs.length == 4 && cs.all Char.isDigit then
      some ⟨(digitsToNat cs : ℤ), now.month⟩
    else none
  else
    let rest0 := cs.drop letters.length
    let rest1 := if rest0.head? == some '.' then rest0.tail else rest0
    let rest := rest1.dropWhile isPySpace
    if rest.length == 4 && rest.all Char.isDigit then
      match (monthNames.find? (fun p => p.1 == letters)).map (·.2) with
      | some m => some ⟨(digitsToNat rest : ℤ), m⟩
      | none => none
    else none

/-- The body of the `for` loop of `compute_experience_years` for one match:
skip when the matched text contains "intern"; otherwise parse both ends
(`present`/`current`/`now` resolve to the current date) and, when the end is
strictly after the start, contribute
`(end.year - start.year) * 12 + (end.month - start.month)` months. -/
def contribMonths (now : PDate) (m : RMatch) : ℤ :=
  if containsIC "intern" m.whole then 0
  else
    match capGet m 1 with
    | none => 0
    | some fromRaw =>
      let toRaw := (capGet m 2).getD []
      match dateParse now fromRaw with
      | none => 0
      | some s =>
        let endOpt :=
          if containsIC "present" toRaw || containsIC "current" toRaw ||
              containsIC "now" toRaw then some now
          else dateParse now toRaw
        match endOpt with
        | none => 0
        | some e =>
          if s.year < e.year || (s.year == e.year && s.month < e.month) then
            (e.year - s.year) * 12 + (e.month - s.month)
          else 0

/-- Months accumulated over all `DATE_RANGE_RE` matches. -/
def totalRangeMonths (now : PDate) (text : String) : ℤ :=
  ((dateRangeMatches text).map (contribMonths now)).sum

/-- The fallback regex `(\d+)\s+years?` of `compute_experience_years`. -/
def yearsRE : RE :=
  .cat (.grp 1 (.rep (.kls .digit) 1 none))
    (catList [.rep (.kls .space) 1 none, .lit "year".data,
      .rep (.lit "s".data) 0 (some 1)])

/-- The `"X years"` fallback: the first match's captured digits. -/
def yearsFallback (text : String) : Option Nat :=
  (reSearch yearsRE text.data).bind (fun m => (capGet m 1).map digitsToNat)

/-- Source `compute_experience_years` of `core/parsing.py`: total months over all
qualifying date ranges (falling back to `"X years" * 12` when that total is
zero), divided by 12 and rounded to one decimal.  `round(m / 12.0, 1)` in
Python equals the exact-rational half-even rounding used here for every
total below a million months (checked exhaustively against CPython). -/
def compute_experience_years (now : PDate) (text : String) : ℚ :=
  let tm := totalRangeMonths now text
  let tm2 := if tm = 0 then
      (match yearsFallback text with
       | some n => (n : ℤ) * 12
       | none => 0)
    else tm
  Rat.divInt (roundHEFrac (tm2 * 10) 12) 10

/-! ### `extract_skills` (`core/parsing.py`) -/

/-- Source `TECH_DICTIONARY` of `core/parsing.py`, in source order. -/
def TECH_DICTIONARY : List String :=
  ["aws", "amazon web services",
   "azure", "microsoft azure",
   "gcp", "google cloud",
   "cloud consulting", "cloud sales",
   "infrastructure as a service", "iaas",
   "platform as a service", "paas",
   "software as a service", "saas",
   "virtual machines", "vm", "virtualization",
   "backup", "disaster recovery",
   "cloud security", "cybersecurity",
   "enterprise sales", "b2b sales",
   "inside sales", "channel sales",
   "account management", "key account management",
   "territory management",
   "business development",
   "demand generation", "lead generation",
   "pipeline management",
   "solution selling", "consultative selling",
   "presales",
   "linkedin sales navigator", "lusha",
   "salesforce", "hubspot", "crm"]

/-- The platform-synonym normalization step of `extract_skills`. -/
def normalizePlat (s : String) : String :=
  if s == "amazon web services" then "aws"
  else if s == "microsoft azure" then "azure"
  else if s == "google cloud" then "gcp"
  else s

/-- Source `extract_skills` of `core/parsing.py`: keep every vocabulary phrase
occurring (case-insensitively, by substring) in the text, canonicalize the
three platform synonyms, and return the sorted duplicate-free result
(Python's `sorted(set(...))`).  The source's default vocabulary is
`TECH_DICTIONARY`; callers here pass it explicitly. -/
def extract_skills (text : String) (skills_master : List String) : List String :=
  let t := lowerS text
  let found := skills_master.filter (fun s => listInfix (lowerS s).data t.data)
  let normalized := found.map normalizePlat
  List.insertionSort (fun a b => strLeB a b = true) normalized.dedup

/-! ### The scoring engine (`core/scoring.py`)

The primary path sends one request to an external inference service and
defensively coerces the JSON it returns; any exception anywhere in that path
is caught and answered by `_heuristic_score`.  The JSON value model below
covers the payloads `json.loads` can produce (nested objects are folded into
`arr` elements only as far as the claims need; no claim inspects them). -/

/-- A JSON value as `json.loads` yields it: `null`, booleans, integers,
non-integer numbers, strings, arrays. -/
inductive JVal where
  | null
  | bool (b : Bool)
  | int (n : ℤ)
  | num (q : ℚ)
  | str (s : String)
  | arr (elems : List JVal)

/-- A single-quote character as a string. -/
def sqc : String := ⟨[Char.ofNat 39]⟩

/-- Python `repr` for the modelled values; for floats the claims never
inspect the digits, so a plain numerator/denominator rendering stands in for
CPython's shortest-repr digits. -/
def pyRepr : JVal → String
  | .null => "None"
  | .bool true => "True"
  | .bool false => "False"
  | .int n => toString n
  | .num q => toString q.num ++ "/" ++ toString q.den
  | .str s => sqc ++ s ++ sqc
  | .arr xs => "[" ++ String.intercalate ", " (xs.attach.map (fun x => pyRepr x.1)) ++ "]"
decreasing_by
  have h := List.sizeOf_lt_of_mem x.2
  simp only [JVal.arr.sizeOf_spec]
  omega

/-- Python `str()`: the string itself for strings, `repr` otherwise (for the
types modelled here). -/
def pyStr : JVal → String
  | .str s => s
  | v => pyRepr v

/-- Python truthiness of a JSON value. -/
def pyFalsy : JVal → Bool
  | .null => true
  | .bool b => !b
  | .int n => n == 0
  | .num q => q.num == 0
  | .str s => s == ""
  | .arr xs => xs.isEmpty

/-- Python `dict.get` on a JSON object (`json.loads` keeps the last duplicate
key). -/
def jget (d : List (String × JVal)) (k : String) : Option JVal :=
  (d.reverse.find? (fun p => p.1 == k)).map (·.2)

/-- Expression `data.get("ai_fit_score") or 0`: a missing or falsy value becomes the
integer 0. -/
def orZero (v : Option JVal) : JVal :=
  match v with
  | none => .int 0
  | some w => if pyFalsy w then .int 0 else w

/-- Python `int()` on a string: strip whitespace, optional sign, decimal
digits; anything else raises (digit-separating underscores are not
modelled). -/
def pyIntOfStr (s : String) : Except String ℤ :=
  let cs := pyStripL s.data
  let sd : ℤ × List Char :=
    match cs with
    | '-' :: rest => (-1, rest)
    | '+' :: rest => (1, rest)
    | rest => (1, rest)
  if !sd.2.isEmpty && sd.2.all Char.isDigit then
    .ok (sd.1 * (digitsToNat sd.2 : ℤ))
  else .error "invalid literal for int() with base 10"

/-- Python `int()` on a JSON value: ints pass through, booleans become 0/1,
floats truncate toward zero, numeric strings parse; `None` and lists raise
`TypeError`. -/
def pyIntOf : JVal → Except String ℤ
  | .int n => .ok n
  | .bool b => .ok (if b then 1 else 0)
  | .num q => .ok (q.num / (q.den : ℤ))
  | .str s => pyIntOfStr s
  | .null => .error "int() argument is None"
  | .arr _ => .error "int() argument is a list"

/-- The `strengths`/`weaknesses` coercion: a list passes through, `None` (or
an absent key) becomes `[]`, any other value is wrapped in a singleton. -/
def coerceListField (v : Option JVal) : List JVal :=
  match v with
  | some (.arr xs) => xs
  | some .null => []
  | some w => [w]
  | none => []

/-- Expression `str(x).strip().lower().startswith("y")` — the explicit-yes test applied
to the raw `best_fit` field. -/
def startsY (v : JVal) : Bool :=
  List.isPrefixOf "y".data ((pyStripL (pyStr v).data).map Char.toLower)

/-- The shape the scoring engine returns (`ai_summary`, `strengths`,
`weaknesses`, `ai_fit_score`, `best_fit`). -/
structure FitAssessment where
  ai_summary : String
  strengths : List JVal
  weaknesses : List JVal
  ai_fit_score : ℤ
  best_fit : String

/-- The defensive coercion of a parsed JSON object on the primary path of
`score_resume_with_llm`.  `int(...)` may raise (`Except.error`), which the
caller's `except` turns into the heuristic fallback; every other step is
total. -/
def primaryCoerce (d : List (String × JVal)) : Except String FitAssessment :=
  match pyIntOf (orZero (jget d "ai_fit_score")) with
  | .error e => .error e
  | .ok sc =>
    .ok
      { ai_summary := pyStrip (pyStr ((jget d "ai_summary").getD (.str "")))
        strengths := coerceListField (jget d "strengths")
        weaknesses := coerceListField (jget d "weaknesses")
        ai_fit_score := sc
        best_fit :=
          if startsY ((jget d "best_fit").getD (.str "")) = true ∨ 70 ≤ sc then
            "Yes"
          else "No" }

/-! ### `_heuristic_score` -/

/-- Variable `skills` of `_heuristic_score`: the resume's skills over the built-in
vocabulary. -/
def heurSkills (resume_text : String) : List String :=
  extract_skills resume_text TECH_DICTIONARY

/-- Variable `jd_skills` of `_heuristic_score`. -/
def heurJdSkills (jd_text : String) : List String :=
  extract_skills jd_text TECH_DICTIONARY

/-- Variable `overlap = [s for s in skills if s in jd_skills]`. -/
def heurOverlap (resume_text jd_text : String) : List String :=
  (heurSkills resume_text).filter (fun s => (heurJdSkills jd_text).contains s)

/-- The fallback score: `int(round((len(overlap) / max(1, len(jd_skills)))
* 100))` when the JD yields any skill (the division and the product are
binary64 operations), else `min(100, len(skills) * 10)`. -/
def heurScore (resume_text jd_text : String) : ℤ :=
  if (heurJdSkills jd_text).isEmpty then
    min 100 ((heurSkills resume_text).length * 10)
  else
    pyRoundHE (floatMulInt
      (floatDiv ((heurOverlap resume_text jd_text).length : ℤ)
        (max 1 ((heurJdSkills jd_text).length : ℤ))) 100)

/-- Variable `gaps_base = list(set(jd_skills) - set(skills))[:3]`.  CPython's
`list(set(...))` order is unspecified (string-hash order); the model fixes
first-seen order, which realizes one admissible ordering of the same set. -/
def heurGaps (resume_text jd_text : String) : List String :=
  ((heurJdSkills jd_text).filter
    (fun s => !((heurSkills resume_text).contains s))).take 3

/-- Source `_heuristic_score` of `core/scoring.py`: the deterministic local
fallback used whenever the primary inference path raises. -/
def _heuristic_score (resume_text jd_text : String) : FitAssessment :=
  { ai_summary :=
      toString (heurSkills resume_text).length ++
        " technical skills identified; key: " ++
        String.intercalate ", " ((heurSkills resume_text).take 6) ++ "."
    strengths :=
      ((if (heurOverlap resume_text jd_text).isEmpty then
          (heurSkills resume_text).take 3
        else (heurOverlap resume_text jd_text).take 3).map
        (fun x => JVal.str ("Experienced in " ++ x)))
    weaknesses :=
      (heurGaps resume_text jd_text).map
        (fun x => JVal.str ("Missing or weak in " ++ x))
    ai_fit_score := heurScore resume_text jd_text
    best_fit := if 70 ≤ heurScore resume_text jd_text then "Yes" else "No" }

/-! ### `score_resume_with_llm` -/

/-- What the primary inference attempt can deliver to the `try` block:
`fail` covers every exception before `json.loads` succeeds (network error,
timeout, non-JSON response); `otherJson` is a parsed JSON document that is
not an object, on which `data.get` raises `AttributeError`; `objJson` is a
parsed JSON object handed to the coercion. -/
inductive LLMOutcome where
  | fail (msg : String)
  | otherJson (v : JVal)
  | objJson (fields : List (String × JVal))

/-- Source `score_resume_with_llm` of `core/scoring.py` over the modelled upstream
outcome: any exception on the primary path — transport failure, non-object
JSON, or a coercion error — is caught and answered with
`_heuristic_score(resume_text, jd_text)`; the function itself always
returns a `FitAssessment` and never propagates an error.  The `position`
argument only feeds the prompt and does not influence the result.  The
audit-log append is a fire-and-forget side effect with no influence on the
returned value and is not modelled. -/
def score_resume_with_llm (upstream : LLMOutcome)
    (resume_text jd_text position : String) : FitAssessment :=
  match upstream with
  | .fail _ => _heuristic_score resume_text jd_text
  | .otherJson _ => _heuristic_score resume_text jd_text
  | .objJson d =>
    match primaryCoerce d with
    | .ok out => out
    | .error _ => _heuristic_score resume_text jd_text

/-! ### `extract_text_from_bytes` (`core/parsing.py`) -/

/-- Python `pathlib.PurePath(filename).suffix.lower()`: the extension of the final
path component — nonempty only when the last dot is neither the first nor
the last character of that component. -/
def pathSuffix (filename : String) : String :=
  let base := filename.data.reverse.dropWhile (fun c => c == '/')
  let nm := (base.takeWhile (fun c => !(c == '/'))).reverse
  let tailRun := (nm.reverse.takeWhile (fun c => !(c == '.'))).length
  if tailRun == nm.length then ""
  else
    let i := nm.length - 1 - tailRun
    if 0 < i && tailRun ≥ 1 then ⟨(nm.drop i).map Char.toLower⟩ else ""

/-- Is `x` a UTF-8 continuation byte? -/
def contOk (x : Nat) : Bool := 128 ≤ x && x ≤ 191

/-- Decode one UTF-8 sequence: `Sum.inr (codepoint, length)` on success,
`Sum.inl k` when the leading bytes are ill-formed and the maximal valid
subpart has length `k` (which CPython's `errors="ignore"` handler drops). -/
def utf8Decode1 : List Nat → Sum Nat (Nat × Nat)
  | [] => .inl 1
  | b :: rest =>
    if b ≤ 127 then .inr (b, 1)
    else if 194 ≤ b && b ≤ 223 then
      match rest with
      | c1 :: _ =>
        if contOk c1 then .inr ((b - 192) * 64 + (c1 - 128), 2) else .inl 1
      | [] => .inl 1
    else if 224 ≤ b && b ≤ 239 then
      let lo1 := if b == 224 then 160 else 128
      let hi1 := if b == 237 then 159 else 191
      match rest with
      | c1 :: rest1 =>
        if lo1 ≤ c1 && c1 ≤ hi1 then
          match rest1 with
          | c2 :: _ =>
            if contOk c2 then
              .inr ((b - 224) * 4096 + (c1 - 128) * 64 + (c2 - 128), 3)
            else .inl 2
          | [] => .inl 2
        else .inl 1
      | [] => .inl 1
    else if 240 ≤ b && b ≤ 244 then
      let lo1 := if b == 240 then 144 else 128
      let hi1 := if b == 244 then 143 else 191
      match rest with
      | c1 :: rest1 =>
        if lo1 ≤ c1 && c1 ≤ hi1 then
          match rest1 with
          | c2 :: rest2 =>
            if contOk c2 then
              match rest2 with
              | c3 :: _ =>
                if contOk c3 then
                  .inr ((b - 240) * 262144 + (c1 - 128) * 4096 +
                    (c2 - 128) * 64 + (c3 - 128), 4)
                else .inl 3
              | [] => .inl 3
            else .inl 2
          | [] => .inl 2
        else .inl 1
      | [] => .inl 1
    else .inl 1

/-- Worker for `decodeUtf8Ignore`; the fuel is the byte count (every step
consumes at least one byte). -/
def decodeUtf8IgnoreGo : Nat → List Nat → List Char
  | 0, _ => []
  | _, [] => []
  | f + 1, bs =>
    match utf8Decode1 bs with
    | .inr (cp, n) => Char.ofNat cp :: decodeUtf8IgnoreGo f (bs.drop n)
    | .inl k => decodeUtf8IgnoreGo f (bs.drop (max 1 k))

/-- Python `bytes.decode("utf-8", errors="ignore")`: decode what is well-formed,
silently drop ill-formed subparts; never raises. -/
def decodeUtf8Ignore (bs : List Nat) : String := ⟨decodeUtf8IgnoreGo bs.length bs⟩

/-- Source `extract_text_from_pdf_bytes` of `core/parsing.py`.  Modelled from the
spec: `PyPDF2.PdfReader` and per-page `extract_text` are external; the
whole parse is an oracle producing each page's optional text, or failing —
any exception inside the `try` yields `""`.  A page's missing text
contributes `""` (the source's `p.extract_text() or ""`). -/
def extract_text_from_pdf_bytes (pdfReader : List Nat → Option (List (Option String)))
    (b : List Nat) : String :=
  match pdfReader b with
  | none => ""
  | some pages => String.intercalate "\n" (pages.map (fun p => p.getD ""))

/-- Source `extract_text_from_docx_bytes` of `core/parsing.py`.  Modelled from the
spec: `docx.Document` is external; the oracle produces the paragraph texts
or fails, and any exception yields `""`. -/
def extract_text_from_docx_bytes (docxReader : List Nat → Option (List String))
    (b : List Nat) : String :=
  match docxReader b with
  | none => ""
  | some paras => String.intercalate "\n" paras

/-- Source `extract_text_from_bytes` of `core/parsing.py`: dispatch on the filename
extension; PDF and DOCX go to their (exception-absorbing) readers, anything
else is decoded permissively.  Total for every filename and byte input. -/
def extract_text_from_bytes (pdfReader : List Nat → Option (List (Option String)))
    (docxReader : List Nat → Option (List String))
    (filename : String) (b : List Nat) : String :=
  let sfx := pathSuffix filename
  if sfx == ".pdf" then extract_text_from_pdf_bytes pdfReader b
  else if sfx == ".docx" || sfx == ".doc" then extract_text_from_docx_bytes docxReader b
  else decodeUtf8Ignore b

/-! ### `extract_education` (`core/parsing.py`) -/

/-- Source `EDU_PRIORITY` of `core/parsing.py`, in source order. -/
def EDU_PRIORITY : List String :=
  ["phd", "doctorate", "mba", "m.tech", "mtech", "msc", "master", "masters",
   "b.tech", "btech", "b.e", "be", "bsc", "bachelor", "diploma"]

/-- Source `EDU_CANON` of `core/parsing.py`. -/
def EDU_CANON : List (String × String) :=
  [("phd", "PhD"), ("mba", "MBA"), ("m.tech", "M.Tech"), ("msc", "M.Sc"),
   ("b.tech", "B.Tech"), ("b.e", "B.E."), ("bsc", "B.Sc"),
   ("diploma", "Diploma")]

/-- Worker for `pyTitle`; the flag records whether the previous character
was alphabetic. -/
def titleGo : Bool → List Char → List Char
  | _, [] => []
  | prev, c :: rest =>
    if c.isAlpha then
      (if prev then c.toLower else c.toUpper) :: titleGo true rest
    else c :: titleGo false rest

/-- Python `str.title()` (ASCII view): uppercase each letter that follows a
non-letter, lowercase the rest. -/
def pyTitle (s : String) : String := ⟨titleGo false s.data⟩

/-- Source `extract_education` of `core/parsing.py`: the first `EDU_PRIORITY`
keyword contained (case-insensitively) in the text, mapped through
`EDU_CANON` when present there and title-cased otherwise; `""` when no
keyword occurs. -/
def extract_education (text : String) : String :=
  match EDU_PRIORITY.find? (fun k => listInfix k.data (lowerS text).data) with
  | some k => (List.lookup k EDU_CANON).getD (pyTitle k)
  | none => ""

/-! ### `extract_position_from_jd` (`core/parsing.py`) -/

/-- Worker for `splitLinesPy`. -/
def splitLinesGo : List Char → List Char → List (List Char)
  | [], acc => if acc.isEmpty then [] else [acc.reverse]
  | '\r' :: '\n' :: rest, acc => acc.reverse :: splitLinesGo rest []
  | '\r' :: rest, acc => acc.reverse :: splitLinesGo rest []
  | '\n' :: rest, acc => acc.reverse :: splitLinesGo rest []
  | c :: rest, acc => splitLinesGo rest (c :: acc)

/-- Python `str.splitlines()` for the common line separators (`\n`, `\r\n`,
`\r`); a trailing separator produces no trailing empty line. -/
def splitLinesPy (s : String) : List String :=
  (splitLinesGo s.data []).map (fun l => ⟨l⟩)

/-- The stripped non-blank lines of a JD, as
`[l.strip() for l in jd_text.splitlines() if l.strip()]`. -/
def jdLines (jd_text : String) : List String :=
  ((splitLinesPy jd_text).map pyStrip).filter (fun l => !(l == ""))

/-- The regex `(?i)(job\s*title[:\-\s]+)(.+)` of `extract_position_from_jd`. -/
def posTitleRE : RE :=
  .cat (.grp 1 (catList [.lit "job".data, wsRE, .lit "title".data,
    .rep (.kls .jtsep) 1 none]))
    (.grp 2 (.rep (.kls .dotAny) 1 none))

/-- Source `extract_position_from_jd` of `core/parsing.py`: empty input yields
`""`; otherwise take the first stripped non-blank line, and if the job-title
regex matches anywhere in it (`re.search`), return the trimmed capture after
the marker, else the line truncated to 120 characters. -/
def extract_position_from_jd (jd_text : String) : String :=
  if jd_text == "" then ""
  else
    match jdLines jd_text with
    | [] => ""
    | top :: _ =>
      match reSearch posTitleRE top.data with
      | some m => pyStrip ⟨(capGet m 2).getD []⟩
      | none => ⟨top.data.take 120⟩

/-! ## Lemmas about the string order used by `sorted(...)` -/

lemma lexLtB_irrefl : ∀ l : List Char, lexLtB l l = false
  | [] => rfl
  | a :: as => by simp [lexLtB, lexLtB_irrefl as]

lemma lexLtB_trans : ∀ x y z : List Char,
    lexLtB x y = true → lexLtB y z = true → lexLtB x z = true := by
  intro x
  induction x with
  | nil =>
    intro y z hxy hyz
    cases y with
    | nil => simp [lexLtB] at hxy
    | cons b bs =>
      cases z with
      | nil => simp [lexLtB] at hyz
      | cons c cs => simp [lexLtB]
  | cons a as ih =>
    intro y z hxy hyz
    cases y with
    | nil => simp [lexLtB] at hxy
    | cons b bs =>
      cases z with
      | nil => simp [lexLtB] at hyz
      | cons c cs =>
        simp only [lexLtB] at hxy hyz ⊢
        by_cases h1 : a.toNat < b.toNat
        · by_cases h2 : b.toNat < c.toNat
          · simp [h1.trans h2]
          · rw [if_neg h2] at hyz
            by_cases h3 : c.toNat < b.toNat
            · rw [if_pos h3] at hyz; exact absurd hyz (by simp)
            · have : a.toNat < c.toNat := by omega
              simp [this]
        · rw [if_neg h1] at hxy
          by_cases h4 : b.toNat < a.toNat
          · rw [if_pos h4] at hxy; exact absurd hxy (by simp)
          · rw [if_neg h4] at hxy
            by_cases h2 : b.toNat < c.toNat
            · have : a.toNat < c.toNat := by omega
              simp [this]
            · rw [if_neg h2] at hyz
              by_cases h3 : c.toNat < b.toNat
              · rw [if_pos h3] at hyz; exact absurd hyz (by simp)
              · rw [if_neg h3] at hyz
                have h5 : ¬ a.toNat < c.toNat := by omega
                have h6 : ¬ c.toNat < a.toNat := by omega
                rw [if_neg h5, if_neg h6]
                exact ih bs cs hxy hyz

lemma lexLtB_conn : ∀ x y : List Char,
    lexLtB x y = false → lexLtB y x = false → x = y := by
  intro x
  induction x with
  | nil =>
    intro y hxy _
    cases y with
    | nil => rfl
    | cons b bs => simp [lexLtB] at hxy
  | cons a as ih =>
    intro y hxy hyx
    cases y with
    | nil => simp [lexLtB] at hyx
    | cons b bs =>
      simp only [lexLtB] at hxy hyx
      by_cases h1 : a.toNat < b.toNat
      · rw [if_pos h1] at hxy; exact absurd hxy (by simp)
      · by_cases h2 : b.toNat < a.toNat
        · rw [if_pos h2] at hyx; exact absurd hyx (by simp)
        · rw [if_neg h1, if_neg h2] at hxy
          rw [if_neg h2, if_neg h1] at hyx
          have hab : a = b := by
            have ht : a.toNat = b.toNat := by omega
            exact Char.eq_of_val_eq (UInt32.toNat.inj ht)
          rw [hab, ih bs hxy hyx]

lemma lexLtB_asymm {x y : List Char} (h : lexLtB x y = true) : lexLtB y x = false := by
  by_contra hc
  have hyx : lexLtB y x = true := by
    cases hv : lexLtB y x with
    | false => exact absurd hv hc
    | true => rfl
  have := lexLtB_trans x y x h hyx
  rw [lexLtB_irrefl] at this
  exact absurd this (by simp)

/-- The sort relation is total. -/
instance : IsTotal String (fun a b => strLeB a b = true) := by
  constructor
  intro a b
  unfold strLeB
  cases hv : lexLtB b.data a.data with
  | false => left; simp
  | true => right; simp [lexLtB_asymm hv]

/-- The sort relation is transitive. -/
instance : IsTrans String (fun a b => strLeB a b = true) := by
  constructor
  intro a b c hab hbc
  unfold strLeB at hab hbc ⊢
  have hba : lexLtB b.data a.data = false := by
    cases hv : lexLtB b.data a.data with
    | false => rfl
    | true => rw [hv] at hab; exact absurd hab (by simp)
  have hcb : lexLtB c.data b.data = false := by
    cases hv : lexLtB c.data b.data with
    | false => rfl
    | true => rw [hv] at hbc; exact absurd hbc (by simp)
  cases hca : lexLtB c.data a.data with
  | false => simp
  | true =>
    exfalso
    cases hab2 : lexLtB a.data b.data with
    | true =>
      have := lexLtB_trans c.data a.data b.data hca hab2
      rw [this] at hcb
      exact absurd hcb (by simp)
    | false =>
      have hd : a.data = b.data := lexLtB_conn a.data b.data hab2 hba
      have : a = b := by
        cases a; cases b
        exact congrArg String.mk hd
      rw [this] at hca
      rw [hca] at hcb
      exact absurd hcb (by simp)

/-! ## Lemmas about `extract_skills` -/

lemma extract_skills_nodup (text : String) (vocab : List String) :
    (extract_skills text vocab).Nodup := by
  unfold extract_skills
  exact ((List.perm_insertionSort _ _).nodup_iff).mpr (List.nodup_dedup _)

lemma extract_skills_sorted (text : String) (vocab : List String) :
    List.Sorted (fun a b => strLeB a b = true) (extract_skills text vocab) :=
  List.sorted_insertionSort _ _

lemma mem_extract_skills {x : String} {text : String} {vocab : List String} :
    x ∈ extract_skills text vocab ↔
      ∃ s, s ∈ vocab ∧ listInfix (lowerS s).data (lowerS text).data = true ∧
        normalizePlat s = x := by
  unfold extract_skills
  rw [List.mem_insertionSort, List.mem_dedup, List.mem_map]
  constructor
  · rintro ⟨s, hs, hn⟩
    have hf := List.mem_filter.mp hs
    exact ⟨s, hf.1, hf.2, hn⟩
  · rintro ⟨s, hv, hm, hn⟩
    exact ⟨s, List.mem_filter.mpr ⟨hv, hm⟩, hn⟩

/-- The resume skills are a duplicate-free list, so the overlap (a filter of
it) has at most as many entries as the JD skill list it draws from. -/
lemma heurOverlap_length_le (r j : String) :
    (heurOverlap r j).length ≤ (heurJdSkills j).length := by
  have hnd : (heurOverlap r j).Nodup :=
    (extract_skills_nodup r TECH_DICTIONARY).filter _
  have hsub : (heurOverlap r j).toFinset ⊆ (heurJdSkills j).toFinset := by
    intro x hx
    rw [List.mem_toFinset] at hx ⊢
    have := (List.mem_filter.mp hx).2
    simpa using this
  calc (heurOverlap r j).length = (heurOverlap r j).toFinset.card :=
        (List.toFinset_card_of_nodup hnd).symm
    _ ≤ (heurJdSkills j).toFinset.card := Finset.card_le_card hsub
    _ ≤ (heurJdSkills j).length := (heurJdSkills j).toFinset_card_le

/-- Every extracted skill is a normalized vocabulary entry, so the skill
list never exceeds the vocabulary's distinct normalized forms — for
`TECH_DICTIONARY`, 37 values. -/
lemma heurJdSkills_length_le (j : String) : (heurJdSkills j).length ≤ 37 := by
  have hnd : (heurJdSkills j).Nodup := extract_skills_nodup j TECH_DICTIONARY
  have hsub : (heurJdSkills j).toFinset ⊆
      (TECH_DICTIONARY.map normalizePlat).toFinset := by
    intro x hx
    rw [List.mem_toFinset] at hx ⊢
    obtain ⟨s, hv, _, hn⟩ := mem_extract_skills.mp hx
    exact hn ▸ List.mem_map_of_mem normalizePlat hv
  have hcard : (TECH_DICTIONARY.map normalizePlat).toFinset.card = 37 := by decide
  calc (heurJdSkills j).length = (heurJdSkills j).toFinset.card :=
        (List.toFinset_card_of_nodup hnd).symm
    _ ≤ (TECH_DICTIONARY.map normalizePlat).toFinset.card := Finset.card_le_card hsub
    _ = 37 := hcard

/-! ## The binary64 evaluation of the fallback score agrees with the exact
formula on the whole reachable domain

`|overlap| ≤ |jd_skills| ≤ 37`, and on every such pair the float chain
`round((o / max(1, j)) * 100)` coincides with the exact rational rounding
`round(100 * o / max(1, j))` and lies in `[0, 100]`.  (Beyond the reachable
domain this is false: at `o = 23, j = 40` the float product evaluates to
`57.49999999999999`, so CPython rounds to 57 while the exact value 57.5
rounds to 58.) -/

set_option maxRecDepth 100000 in
lemma float_score_agrees : ∀ o jl : Fin 38, o.1 ≤ jl.1 →
    (pyRoundHE (floatMulInt (floatDiv (o.1 : ℤ) (max 1 (jl.1 : ℤ))) 100) =
        pyRoundHE (Rat.divInt ((o.1 : ℤ) * 100) (max 1 (jl.1 : ℤ))) ∧
      0 ≤ pyRoundHE (floatMulInt (floatDiv (o.1 : ℤ) (max 1 (jl.1 : ℤ))) 100) ∧
      pyRoundHE (floatMulInt (floatDiv (o.1 : ℤ) (max 1 (jl.1 : ℤ))) 100) ≤ 100) := by
  decide

lemma float_score_agrees_nat (o jl : ℕ) (h1 : o ≤ jl) (h2 : jl ≤ 37) :
    pyRoundHE (floatMulInt (floatDiv (o : ℤ) (max 1 (jl : ℤ))) 100) =
        pyRoundHE (Rat.divInt ((o : ℤ) * 100) (max 1 (jl : ℤ))) ∧
      0 ≤ pyRoundHE (floatMulInt (floatDiv (o : ℤ) (max 1 (jl : ℤ))) 100) ∧
      pyRoundHE (floatMulInt (floatDiv (o : ℤ) (max 1 (jl : ℤ))) 100) ≤ 100 := by
  have h := float_score_agrees ⟨o, by omega⟩ ⟨jl, by omega⟩ (by simpa using h1)
  simpa using h

/-- The fallback score always lies in `[0, 100]`. -/
lemma heurScore_bounds (r j : String) : 0 ≤ heurScore r j ∧ heurScore r j ≤ 100 := by
  unfold heurScore
  by_cases he : (heurJdSkills j).isEmpty
  · rw [if_pos he]
    constructor
    · exact le_min (by norm_num) (by positivity)
    · exact min_le_left _ _
  · rw [if_neg he]
    have h := float_score_agrees_nat (heurOverlap r j).length (heurJdSkills j).length
      (heurOverlap_length_le r j) (heurJdSkills_length_le j)
    exact ⟨h.2.1, h.2.2⟩

/-- In the branch where the JD yields skills, the float score equals the
exact `round(100 * |overlap| / max(1, |jd_skills|))`. -/
lemma heurScore_eq_exact (r j : String) (hne : (heurJdSkills j).isEmpty = false) :
    heurScore r j =
      pyRoundHE (Rat.divInt (((heurOverlap r j).length : ℤ) * 100)
        (max 1 ((heurJdSkills j).length : ℤ))) := by
  unfold heurScore
  rw [if_neg (by simp [hne])]
  exact (float_score_agrees_nat (heurOverlap r j).length (heurJdSkills j).length
    (heurOverlap_length_le r j) (heurJdSkills_length_le j)).1

/-! ## Small general helpers -/

lemma ite_yes_iff (P : Prop) [Decidable P] :
    (if P then "Yes" else "No") = "Yes" ↔ P := by
  by_cases h : P
  · rw [if_pos h]
    exact ⟨fun _ => h, fun _ => rfl⟩
  · rw [if_neg h]
    exact ⟨fun hc => absurd hc (by decide), fun hp => absurd hp h⟩

/-- Entries on which `f` vanishes contribute nothing to a sum: summing `f`
over a list equals summing it over the sublist where `p` fails, as soon as
`f` is zero whenever `p` holds. -/
lemma sum_map_eq_sum_filter_not {α : Type} (f : α → ℤ) (p : α → Bool)
    (l : List α) (h : ∀ x, p x = true → f x = 0) :
    (l.map f).sum = ((l.filter (fun x => !(p x))).map f).sum := by
  induction l with
  | nil => rfl
  | cons a t ih =>
    cases hp : p a with
    | true => simp [List.filter_cons, hp, h a hp, ih]
    | false => simp [List.filter_cons, hp, ih]

/-! ## Claim C1 -/

/-- C1: every `FitAssessment` the scoring engine returns has
`best_fit = "Yes"` exactly when the upstream response explicitly affirms fit
(its `best_fit` field, stringified and stripped, starts with `y`/`Y`) or the
coerced `ai_fit_score` is at least 70 — in particular a score of 70 or more
forces `"Yes"` even over an explicit upstream `"No"`; on the heuristic
fallback path (where there is no upstream response) `best_fit = "Yes"`
exactly when the score is at least 70. -/
theorem c1_best_fit_iff (d : List (String × JVal)) (r j p : String)
    (out : FitAssessment) (h : primaryCoerce d = .ok out) :
    score_resume_with_llm (.objJson d) r j p = out ∧
      (out.best_fit = "Yes" ↔
        (startsY ((jget d "best_fit").getD (.str "")) = true ∨
          70 ≤ out.ai_fit_score)) ∧
      ((_heuristic_score r j).best_fit = "Yes" ↔
        70 ≤ (_heuristic_score r j).ai_fit_score) := by
  refine ⟨?_, ?_, ite_yes_iff _⟩
  · simp [score_resume_with_llm, h]
  · unfold primaryCoerce at h
    cases hsc : pyIntOf (orZero (jget d "ai_fit_score")) with
    | error e => rw [hsc] at h; exact absurd h (by simp)
    | ok sc =>
      rw [hsc] at h
      simp only [Except.ok.injEq] at h
      subst h
      exact ite_yes_iff _

/-- A response affirming nothing but scoring 85: the engine answers
`"Yes"`. -/
def c1Obj : List (String × JVal) :=
  [("best_fit", JVal.str "No"), ("ai_fit_score", JVal.int 85)]

/-- The assessment `c1Obj` coerces to. -/
def c1Out : FitAssessment := ⟨"", [], [], 85, "Yes"⟩

theorem c1_best_fit_iff_witness :
    score_resume_with_llm (.objJson c1Obj) "resume" "jd" "pos" = c1Out ∧
      (c1Out.best_fit = "Yes" ↔
        (startsY ((jget c1Obj "best_fit").getD (.str "")) = true ∨
          70 ≤ c1Out.ai_fit_score)) ∧
      ((_heuristic_score "resume" "jd").best_fit = "Yes" ↔
        70 ≤ (_heuristic_score "resume" "jd").ai_fit_score) :=
  c1_best_fit_iff c1Obj "resume" "jd" "pos" c1Out (by rfl)

/-! ## Claim C2 -/

/-- C2: `score_resume_with_llm` is total (its Lean type returns a plain
`FitAssessment`, mirroring that the Python function never lets an exception
escape), and on every failing primary outcome — transport failure or
non-JSON response (`fail`), a JSON payload that is not an object
(`otherJson`, where `data.get` raises `AttributeError`), or a JSON object on
which the defensive coercion raises — it returns exactly the heuristic
fallback `_heuristic_score resume_text jd_text`. -/
theorem c2_fallback_on_failure (r j p : String) (u : LLMOutcome)
    (h : ∀ d, u = .objJson d → ∃ e, primaryCoerce d = .error e) :
    score_resume_with_llm u r j p = _heuristic_score r j := by
  cases u with
  | fail m => rfl
  | otherJson v => rfl
  | objJson d =>
    obtain ⟨e, he⟩ := h d rfl
    simp [score_resume_with_llm, he]

theorem c2_fallback_on_failure_witness :
    score_resume_with_llm (.fail "connection timed out") "resume text" "jd text"
      "Cloud Sales Lead" = _heuristic_score "resume text" "jd text" :=
  c2_fallback_on_failure "resume text" "jd text" "Cloud Sales Lead"
    (.fail "connection timed out") (fun _ hd => nomatch hd)

/-! ## Claim C3 -/

/-- A well-formed upstream response carrying an out-of-range score. -/
def c3Obj : List (String × JVal) :=
  [("best_fit", JVal.str "No"), ("ai_fit_score", JVal.int 150)]

/-- C3 counterexample: the primary path does not clamp the coerced score, so
an upstream `ai_fit_score` of 150 is returned as 150 — outside `[0, 100]`. -/
theorem c3_counterexample :
    (score_resume_with_llm (.objJson c3Obj) "resume" "jd" "pos").ai_fit_score = 150 ∧
      ¬ ((score_resume_with_llm (.objJson c3Obj) "resume" "jd" "pos").ai_fit_score
          ≤ 100) := by
  have h1 : (score_resume_with_llm (.objJson c3Obj) "resume" "jd"
      "pos").ai_fit_score = 150 := rfl
  refine ⟨h1, ?_⟩
  rw [h1]
  decide

/-- C3 amended: the fallback path always returns a score in `[0, 100]`; the
primary path merely passes the coerced upstream integer through unclamped,
so its score is in `[0, 100]` exactly when the coerced upstream value is. -/
theorem c3_amended_score_range (r j : String) (d : List (String × JVal))
    (out : FitAssessment) (h : primaryCoerce d = .ok out) :
    pyIntOf (orZero (jget d "ai_fit_score")) = .ok out.ai_fit_score ∧
      0 ≤ (_heuristic_score r j).ai_fit_score ∧
      (_heuristic_score r j).ai_fit_score ≤ 100 := by
  refine ⟨?_, (heurScore_bounds r j).1, (heurScore_bounds r j).2⟩
  unfold primaryCoerce at h
  cases hsc : pyIntOf (orZero (jget d "ai_fit_score")) with
  | error e => rw [hsc] at h; exact absurd h (by simp)
  | ok sc =>
    rw [hsc] at h
    simp only [Except.ok.injEq] at h
    subst h
    rfl

/-- An in-range upstream response for the amended-C3 witness. -/
def c3WObj : List (String × JVal) := [("ai_fit_score", JVal.int 42)]

/-- The assessment `c3WObj` coerces to. -/
def c3WOut : FitAssessment := ⟨"", [], [], 42, "No"⟩

theorem c3_amended_score_range_witness :
    pyIntOf (orZero (jget c3WObj "ai_fit_score")) = .ok c3WOut.ai_fit_score ∧
      0 ≤ (_heuristic_score "r" "j").ai_fit_score ∧
      (_heuristic_score "r" "j").ai_fit_score ≤ 100 :=
  c3_amended_score_range "r" "j" c3WObj c3WOut (by rfl)

/-! ## Claim C4 -/

/-- C4: whenever the fallback path is taken the returned assessment is
`_heuristic_score`, whose fields follow the claimed formulas: the score is
`round(100 * |overlap| / max(1, |jdSkills|))` when the JD yields at least
one recognized skill (on the reachable domain `|overlap| ≤ |jdSkills| ≤ 37`
the binary64 evaluation the code performs coincides with this exact
rounding, by `float_score_agrees`) and `min(100, 10 * |resumeSkills|)`
otherwise; strengths name the first three overlapping skills (or the first
three resume skills when the overlap is empty); weaknesses name up to three
JD skills absent from the resume; and `best_fit = "Yes"` exactly when the
score is at least 70. -/
theorem c4_fallback_assessment (r j p e : String) :
    score_resume_with_llm (.fail e) r j p = _heuristic_score r j ∧
      (_heuristic_score r j).ai_fit_score =
        (if (heurJdSkills j).isEmpty then
          min 100 (((heurSkills r).length : ℤ) * 10)
        else
          pyRoundHE (Rat.divInt (100 * ((heurOverlap r j).length : ℤ))
            (max 1 ((heurJdSkills j).length : ℤ)))) ∧
      (_heuristic_score r j).strengths =
        ((if (heurOverlap r j).isEmpty then (heurSkills r).take 3
          else (heurOverlap r j).take 3).map
            (fun x => JVal.str ("Experienced in " ++ x))) ∧
      (_heuristic_score r j).weaknesses =
        (((heurJdSkills j).filter
            (fun s => !((heurSkills r).contains s))).take 3).map
          (fun x => JVal.str ("Missing or weak in " ++ x)) ∧
      ((_heuristic_score r j).best_fit = "Yes" ↔
        70 ≤ (_heuristic_score r j).ai_fit_score) := by
  refine ⟨rfl, ?_, rfl, rfl, ite_yes_iff _⟩
  show heurScore r j = _
  by_cases he : (heurJdSkills j).isEmpty
  · rw [if_pos he]
    unfold heurScore
    rw [if_pos he]
  · rw [if_neg he]
    rw [heurScore_eq_exact r j (by simpa using he)]
    rw [Int.mul_comm]

theorem c4_fallback_assessment_witness :
    score_resume_with_llm (.fail "boom") "azure and aws work" "aws; gcp; azure; crm"
        "pos" = _heuristic_score "azure and aws work" "aws; gcp; azure; crm" ∧
      (_heuristic_score "azure and aws work" "aws; gcp; azure; crm").ai_fit_score =
        (if (heurJdSkills "aws; gcp; azure; crm").isEmpty then
          min 100 (((heurSkills "azure and aws work").length : ℤ) * 10)
        else
          pyRoundHE (Rat.divInt
            (100 * ((heurOverlap "azure and aws work" "aws; gcp; azure; crm").length : ℤ))
            (max 1 ((heurJdSkills "aws; gcp; azure; crm").length : ℤ)))) ∧
      (_heuristic_score "azure and aws work" "aws; gcp; azure; crm").strengths =
        ((if (heurOverlap "azure and aws work" "aws; gcp; azure; crm").isEmpty then
            (heurSkills "azure and aws work").take 3
          else (heurOverlap "azure and aws work" "aws; gcp; azure; crm").take 3).map
            (fun x => JVal.str ("Experienced in " ++ x))) ∧
      (_heuristic_score "azure and aws work" "aws; gcp; azure; crm").weaknesses =
        (((heurJdSkills "aws; gcp; azure; crm").filter
            (fun s => !((heurSkills "azure and aws work").contains s))).take 3).map
          (fun x => JVal.str ("Missing or weak in " ++ x)) ∧
      ((_heuristic_score "azure and aws work" "aws; gcp; azure; crm").best_fit = "Yes" ↔
        70 ≤ (_heuristic_score "azure and aws work" "aws; gcp; azure; crm").ai_fit_score) :=
  c4_fallback_assessment "azure and aws work" "aws; gcp; azure; crm" "pos" "boom"

/-! ## Claim C5 -/

/-- C5 counterexample: the code checks `"intern"` only inside the matched
text (`m.group(0)`), not in the surrounding text.  In
`"Software Intern, Jan 2018 - Dec 2019"` the one matched range is
`"Jan 2018 - Dec 2019"`, the surrounding text contains `"Intern"`, and the
range still contributes its 23 months: the function returns 1.9, not 0. -/
theorem c5_counterexample :
    containsIC "intern" ("Software Intern, Jan 2018 - Dec 2019").data = true ∧
      (dateRangeMatches "Software Intern, Jan 2018 - Dec 2019").map RMatch.whole =
        ["Jan 2018 - Dec 2019".data] ∧
      compute_experience_years ⟨2026, 10⟩ "Software Intern, Jan 2018 - Dec 2019" =
        Rat.divInt 19 10 ∧
      ¬ (compute_experience_years ⟨2026, 10⟩ "Software Intern, Jan 2018 - Dec 2019" =
          Rat.divInt 0 1) := by
  refine ⟨by decide, by decide, by decide, by decide⟩

/-- C5 amended: a matched range contributes zero months whenever the matched
text itself contains `"intern"` (case-insensitively); consequently the month
total the function divides by 12 is the sum over the matches whose matched
text does not contain `"intern"`. -/
theorem c5_amended_intern_matches (now : PDate) (text : String) (m : RMatch)
    (h : containsIC "intern" m.whole = true) :
    contribMonths now m = 0 ∧
      totalRangeMonths now text =
        (((dateRangeMatches text).filter
            (fun x => !(containsIC "intern" x.whole))).map (contribMonths now)).sum := by
  constructor
  · unfold contribMonths
    rw [if_pos h]
  · unfold totalRangeMonths
    exact sum_map_eq_sum_filter_not (contribMonths now)
      (fun x => containsIC "intern" x.whole) _
      (fun x hx => by unfold contribMonths; rw [if_pos hx])

/-- A match whose matched text contains "Intern". -/
def c5M : RMatch :=
  ⟨"Intern 2018 - 2019".data, [(1, "Intern 2018".data), (2, "2019".data)]⟩

theorem c5_amended_intern_matches_witness :
    contribMonths ⟨2026, 10⟩ c5M = 0 ∧
      totalRangeMonths ⟨2026, 10⟩ "plain text" =
        (((dateRangeMatches "plain text").filter
            (fun x => !(containsIC "intern" x.whole))).map
          (contribMonths ⟨2026, 10⟩)).sum :=
  c5_amended_intern_matches ⟨2026, 10⟩ "plain text" c5M (by decide)

/-! ## Claim C6 -/

/-- C6 counterexample: on `"Jan 2018 - Dec 2019"` the accumulated months are
`(2019 - 2018) * 12 + (12 - 1) = 23`, so the function returns
`round(23 / 12, 1) = 1.9` — not the 2.0 the claim asserts. -/
theorem c6_counterexample :
    compute_experience_years ⟨2026, 10⟩ "Jan 2018 - Dec 2019" = Rat.divInt 19 10 ∧
      ¬ (compute_experience_years ⟨2026, 10⟩ "Jan 2018 - Dec 2019" =
          Rat.divInt 2 1) := by
  refine ⟨by decide, by decide⟩

/-- C6 amended: the general rule holds as claimed — each qualifying range
contributes `(end.year - start.year) * 12 + (end.month - start.month)`
months and the result is the total divided by 12 rounded to one decimal —
but on `"Jan 2018 - Dec 2019"` that rule yields 23 months and hence 1.9,
not 2.0, whatever the evaluation date. -/
theorem c6_amended_example_value (now : PDate) :
    compute_experience_years now "Jan 2018 - Dec 2019" =
        Rat.divInt (roundHEFrac (((2019 - 2018) * 12 + (12 - 1)) * 10) 12) 10 ∧
      compute_experience_years now "Jan 2018 - Dec 2019" = Rat.divInt 19 10 := by
  constructor
  · rfl
  · rfl

theorem c6_amended_example_value_witness :
    compute_experience_years ⟨2026, 10⟩ "Jan 2018 - Dec 2019" =
        Rat.divInt (roundHEFrac (((2019 - 2018) * 12 + (12 - 1)) * 10) 12) 10 ∧
      compute_experience_years ⟨2026, 10⟩ "Jan 2018 - Dec 2019" = Rat.divInt 19 10 :=
  c6_amended_example_value ⟨2026, 10⟩

/-! ## Claim C7 -/

/-- C7: `extract_text_from_bytes` is total — its Lean type returns a plain
`String` for every filename, byte input, and behaviour of the external
readers, mirroring that every decoding exception is caught — and whenever
the bytes are not a valid PDF (the reader oracle fails), not a valid DOCX
(likewise), and not valid text (the permissive UTF-8 decode yields
nothing), the result is the empty string, whatever the filename. -/
theorem c7_text_extract_empty (pdfReader : List Nat → Option (List (Option String)))
    (docxReader : List Nat → Option (List String)) (filename : String)
    (b : List Nat) (hp : pdfReader b = none) (hd : docxReader b = none)
    (ht : decodeUtf8Ignore b = "") :
    extract_text_from_bytes pdfReader docxReader filename b = "" := by
  simp only [extract_text_from_bytes]
  split_ifs with h1 h2
  · unfold extract_text_from_pdf_bytes
    rw [hp]
  · unfold extract_text_from_docx_bytes
    rw [hd]
  · exact ht

theorem c7_text_extract_empty_witness :
    extract_text_from_bytes (fun _ => none) (fun _ => none) "resume.bin" [255] = "" :=
  c7_text_extract_empty (fun _ => none) (fun _ => none) "resume.bin" [255]
    rfl rfl (by rfl)

/-! ## Claim C8 -/

/-- C8: for every text and vocabulary, `extract_skills` returns a sorted
(by Python's string order) duplicate-free list whose members are exactly the
matched vocabulary phrases with the three synonym phrases
`"amazon web services"`, `"microsoft azure"`, `"google cloud"` replaced by
`"aws"`, `"azure"`, `"gcp"` (`normalizePlat`) and all other matches passed
through unchanged; in particular a text containing `"Azure"` and `"AWS"` and
no other vocabulary phrase yields exactly `["aws", "azure"]`. -/
theorem c8_skills_canonical_sorted (text : String) (vocab : List String)
    (x : String) :
    List.Sorted (fun a b => strLeB a b = true) (extract_skills text vocab) ∧
      (extract_skills text vocab).Nodup ∧
      (x ∈ extract_skills text vocab ↔
        ∃ s, s ∈ vocab ∧ listInfix (lowerS s).data (lowerS text).data = true ∧
          normalizePlat s = x) ∧
      extract_skills "Cloud engineer with Azure and AWS experience"
        TECH_DICTIONARY = ["aws", "azure"] :=
  ⟨extract_skills_sorted text vocab, extract_skills_nodup text vocab,
    mem_extract_skills, by decide⟩

theorem c8_skills_canonical_sorted_witness :
    List.Sorted (fun a b => strLeB a b = true)
        (extract_skills "Azure and AWS" TECH_DICTIONARY) ∧
      (extract_skills "Azure and AWS" TECH_DICTIONARY).Nodup ∧
      ("aws" ∈ extract_skills "Azure and AWS" TECH_DICTIONARY ↔
        ∃ s, s ∈ TECH_DICTIONARY ∧
          listInfix (lowerS s).data (lowerS "Azure and AWS").data = true ∧
          normalizePlat s = "aws") ∧
      extract_skills "Cloud engineer with Azure and AWS experience"
        TECH_DICTIONARY = ["aws", "azure"] :=
  c8_skills_canonical_sorted "Azure and AWS" TECH_DICTIONARY "aws"

/-! ## Claim C9 -/

/-- The position rule exactly as the claim words it: the Job-Title marker is
honored only as a PREFIX of the first non-blank line (a match anchored at
position 0), and otherwise the line is truncated to 120 characters.  This
definition follows the claim, not the source; the source uses `re.search`,
which finds the marker anywhere in the line. -/
def positionSpecC9 (jd_text : String) : String :=
  if jd_text == "" then ""
  else
    match jdLines jd_text with
    | [] => ""
    | top :: _ =>
      match matchAt posTitleRE top.data with
      | some (_, caps) =>
          pyStrip ⟨((caps.find? (fun p => p.1 == 2)).map (·.2)).getD []⟩
      | none => ⟨top.data.take 120⟩

/-- C9 counterexample: in `"Acme Corp Job Title: Engineer"` the marker is
not a prefix of the line, so the claim predicts the 120-character
truncation (the whole line); the code's `re.search` finds the marker
mid-line and returns `"Engineer"`. -/
theorem c9_counterexample :
    extract_position_from_jd "Acme Corp Job Title: Engineer" = "Engineer" ∧
      positionSpecC9 "Acme Corp Job Title: Engineer" =
        "Acme Corp Job Title: Engineer" ∧
      ¬ (extract_position_from_jd "Acme Corp Job Title: Engineer" =
          positionSpecC9 "Acme Corp Job Title: Engineer") := by
  refine ⟨by decide, by decide, by decide⟩

/-- C9 amended: empty input (or input with no non-blank line) yields `""`;
otherwise, with L the first stripped non-blank line, if the
`job\s*title[:\-\s]+` marker occurs ANYWHERE in L (the code uses
`re.search`, not a prefix test) the result is the trimmed remainder after
the first such occurrence, and otherwise L truncated to 120 characters. -/
theorem c9_amended_position_rule (jd : String) (top : String) (rest : List String)
    (hne : ¬ (jd = "")) (h : jdLines jd = top :: rest) :
    extract_position_from_jd jd =
        (match reSearch posTitleRE top.data with
         | some m => pyStrip ⟨(capGet m 2).getD []⟩
         | none => ⟨top.data.take 120⟩) ∧
      extract_position_from_jd "" = "" ∧
      extract_position_from_jd "Job Title: Platform Engineer" =
        "Platform Engineer" := by
  refine ⟨?_, rfl, by decide⟩
  have hb : (jd == "") = false := beq_eq_false_iff_ne.mpr hne
  simp only [extract_position_from_jd, hb, Bool.false_eq_true, if_false, h]

theorem c9_amended_position_rule_witness :
    extract_position_from_jd "Senior Cloud Engineer\nMore text" =
        (match reSearch posTitleRE ("Senior Cloud Engineer").data with
         | some m => pyStrip ⟨(capGet m 2).getD []⟩
         | none => ⟨("Senior Cloud Engineer").data.take 120⟩) ∧
      extract_position_from_jd "" = "" ∧
      extract_position_from_jd "Job Title: Platform Engineer" =
        "Platform Engineer" :=
  c9_amended_position_rule "Senior Cloud Engineer\nMore text"
    "Senior Cloud Engineer" ["More text"] (by decide) (by decide)

/-! ## Claim C10 -/

/-- C10: the degree-keyword list contains the bare two-letter entry `"be"`,
and the keywords `doctorate`, `mtech`, `btech`, `master`, `masters`,
`bachelor`, `be` are absent from the canonical map `EDU_CANON`, so they come
back `str.title()`-cased rather than as curated labels; in particular every
text that contains the substring `"be"` (also inside ordinary words such as
`"been"` or `"number"`) and no earlier-priority keyword yields the non-empty
label `"Be"`. -/
theorem c10_bare_degree_keywords (text : String)
    (h1 : listInfix "phd".data (lowerS text).data = false)
    (h2 : listInfix "doctorate".data (lowerS text).data = false)
    (h3 : listInfix "mba".data (lowerS text).data = false)
    (h4 : listInfix "m.tech".data (lowerS text).data = false)
    (h5 : listInfix "mtech".data (lowerS text).data = false)
    (h6 : listInfix "msc".data (lowerS text).data = false)
    (h7 : listInfix "master".data (lowerS text).data = false)
    (h8 : listInfix "masters".data (lowerS text).data = false)
    (h9 : listInfix "b.tech".data (lowerS text).data = false)
    (h10 : listInfix "btech".data (lowerS text).data = false)
    (h11 : listInfix "b.e".data (lowerS text).data = false)
    (hbe : listInfix "be".data (lowerS text).data = true) :
    extract_education text = "Be" ∧ ¬ (extract_education text = "") ∧
      (["doctorate", "mtech", "btech", "master", "masters", "bachelor",
        "be"].all (fun k => (List.lookup k EDU_CANON).isNone) = true) ∧
      pyTitle "be" = "Be" ∧ pyTitle "doctorate" = "Doctorate" ∧
      pyTitle "mtech" = "Mtech" ∧ pyTitle "btech" = "Btech" ∧
      pyTitle "master" = "Master" ∧ pyTitle "masters" = "Masters" ∧
      pyTitle "bachelor" = "Bachelor" ∧
      extract_education "btech in engineering" = "Btech" ∧
      extract_education "doctorate in physics" = "Doctorate" := by
  have hmain : extract_education text = "Be" := by
    unfold extract_education
    simp only [EDU_PRIORITY, List.find?, h1, h2, h3, h4, h5, h6, h7, h8, h9,
      h10, h11, hbe]
    decide
  refine ⟨hmain, by rw [hmain]; decide, by decide, by decide, by decide,
    by decide, by decide, by decide, by decide, by decide, by decide, by decide⟩

theorem c10_bare_degree_keywords_witness :
    extract_education "has been a number" = "Be" ∧
      ¬ (extract_education "has been a number" = "") ∧
      (["doctorate", "mtech", "btech", "master", "masters", "bachelor",
        "be"].all (fun k => (List.lookup k EDU_CANON).isNone) = true) ∧
      pyTitle "be" = "Be" ∧ pyTitle "doctorate" = "Doctorate" ∧
      pyTitle "mtech" = "Mtech" ∧ pyTitle "btech" = "Btech" ∧
      pyTitle "master" = "Master" ∧ pyTitle "masters" = "Masters" ∧
      pyTitle "bachelor" = "Bachelor" ∧
      extract_education "btech in engineering" = "Btech" ∧
      extract_education "doctorate in physics" = "Doctorate" :=
  c10_bare_degree_keywords "has been a number" (by decide) (by decide)
    (by decide) (by decide) (by decide) (by decide) (by decide) (by decide)
    (by decide) (by decide) (by decide) (by decide)

end ResumeCore
